import Mathlib

/-!
Verification development for the db-backup service: a shallow embedding of
the backup orchestration, retention-cleanup, storage-layout and restore
logic, translated from the Go sources (cmd/main.go, internal/s3/s3.go,
internal/storage/local.go, internal/restore/postgres.go), together with
theorems settling the specified behavioural properties.

Modelling conventions:
- External collaborators (the dump tool, the SQL driver, the S3 API, the
  filesystem) are oracles: their outcomes are inputs to the embedded
  functions, and the calls the code makes are recorded in event traces.
- Go time.Time values are modelled as integer seconds on a fixed-offset
  clock (local = UTC, no DST), at one-second granularity; calendar dates
  are triples converted to epoch days by the standard civil-date formula.
- Go string slicing is byte-based; all strings involved are ASCII, so it
  is modelled by character-list operations.
-/

/-- Go strings.Split with a one-character separator, on character lists:
splits around every occurrence of the separator; the result is never empty,
and splitting the empty string yields one empty piece. -/
def splitChar (sep : Char) : List Char → List (List Char)
  | [] => [[]]
  | c :: cs =>
    let r := splitChar sep cs
    if c = sep then [] :: r
    else (c :: r.headD []) :: r.tail

/-- Go strings.Split on strings (single-character separator). -/
def goSplit (s : String) (sep : Char) : List String :=
  (splitChar sep s.data).map String.mk

/-- Go path/filepath.Base: empty path gives ".", a path of only slashes
gives "/", otherwise the last element after trailing slashes are removed. -/
def goBase (path : String) : String :=
  if path = "" then "."
  else
    let stripped := path.data.reverse.dropWhile (fun c => c = '/')
    if stripped = [] then "/"
    else String.mk (stripped.takeWhile (fun c => c ≠ '/')).reverse

/-- Decimal digit character (values above nine clamp to '9'; callers only
pass reduced digits). -/
def digitChar (n : Nat) : Char :=
  match n with
  | 0 => '0' | 1 => '1' | 2 => '2' | 3 => '3' | 4 => '4'
  | 5 => '5' | 6 => '6' | 7 => '7' | 8 => '8' | _ => '9'

/-- Two-digit zero-padded decimal field, as Go's "01"/"02"/"15"/"04"/"05"
layout elements render values below one hundred. -/
def pad2 (n : Nat) : String :=
  String.mk [digitChar (n / 10 % 10), digitChar (n % 10)]

/-- Four-digit zero-padded decimal field, as Go's "2006" layout element
renders years below ten thousand. -/
def pad4 (n : Nat) : String :=
  String.mk [digitChar (n / 1000 % 10), digitChar (n / 100 % 10),
             digitChar (n / 10 % 10), digitChar (n % 10)]

/-- A broken-down clock reading, as Go's Format sees time.Now(). -/
structure DateTime where
  year : Nat
  month : Nat
  day : Nat
  hour : Nat
  minute : Nat
  second : Nat
deriving DecidableEq, Repr

/-- Go t.Format("2006-01-02"). -/
def goFormatDate (t : DateTime) : String :=
  pad4 t.year ++ "-" ++ pad2 t.month ++ "-" ++ pad2 t.day

/-- Go t.Format("2006-01-02_15-04-05"), the dump/upload timestamp layout. -/
def goFormatTimestamp (t : DateTime) : String :=
  goFormatDate t ++ "_" ++ pad2 t.hour ++ "-" ++ pad2 t.minute ++ "-" ++ pad2 t.second

/-- A calendar date as parsed from a storage identifier's date segment. -/
structure Date where
  year : Nat
  month : Nat
  day : Nat
deriving DecidableEq, Repr

def isLeapYear (y : Nat) : Bool :=
  y % 4 = 0 && (y % 100 ≠ 0 || y % 400 = 0)

def daysInMonth (y m : Nat) : Nat :=
  if m = 2 then (if isLeapYear y then 29 else 28)
  else if m = 4 || m = 6 || m = 9 || m = 11 then 30
  else 31

/-- Value of a decimal digit character, if it is one. -/
def charDigit (c : Char) : Option Nat :=
  if '0' ≤ c ∧ c ≤ '9' then some (c.toNat - 48) else none

/-- Value of a run of decimal digit characters; none if any is not a digit. -/
def digitsVal (cs : List Char) : Option Nat :=
  cs.foldl (fun acc c => acc.bind (fun a => (charDigit c).map (fun d => a * 10 + d))) (some 0)

/-- Go time.Parse("2006-01-02", s): exactly four digits, dash, two digits,
dash, two digits, with the month in 1..12 and the day valid for the month
(leap years respected); anything else is a parse error. -/
def goParseDate (s : String) : Option Date :=
  match s.data with
  | [y1, y2, y3, y4, '-', m1, m2, '-', d1, d2] =>
    (digitsVal [y1, y2, y3, y4]).bind (fun y =>
      (digitsVal [m1, m2]).bind (fun m =>
        (digitsVal [d1, d2]).bind (fun d =>
          if 1 ≤ m ∧ m ≤ 12 ∧ 1 ≤ d ∧ d ≤ daysInMonth y m then some ⟨y, m, d⟩ else none)))
  | _ => none

/-- Days from the civil epoch 1970-01-01 (standard civil-from-days inverse),
matching the day count underlying Go's time.Time for UTC dates. -/
def daysFromCivil (dt : Date) : Int :=
  let y : Int := if dt.month ≤ 2 then (dt.year : Int) - 1 else (dt.year : Int)
  let era : Int := (if 0 ≤ y then y else y - 399) / 400
  let yoe : Int := y - era * 400
  let doy : Int := (153 * ((dt.month : Int) + (if 2 < dt.month then -3 else 9)) + 2) / 5 + (dt.day : Int) - 1
  let doe : Int := yoe * 365 + yoe / 4 - yoe / 100 + doy
  era * 146097 + doe - 719468

def secPerDay : Int := 86400

/-- Unix seconds of midnight UTC on a date: what Go's
time.Parse("2006-01-02", s) produces as an instant. -/
def dateSec (dt : Date) : Int := daysFromCivil dt * secPerDay

/-- The retention cutoff instant: time.Now().AddDate(0, 0, -retentionDays)
under the fixed-offset clock model (calendar-day subtraction is then an
exact shift by whole days of seconds). -/
def cutoffSec (nowSec : Int) (retentionDays : Nat) : Int :=
  nowSec - (retentionDays : Int) * secPerDay

/-! ## Storage backends: key layout and retention sweeps -/

/-- Per-key delete decision inside s3.go DeleteOldBackups: split the key on
slashes; with at least three parts, parse the third (the date segment) and
mark for deletion when the parsed midnight instant is before the cutoff;
malformed keys are silently skipped. -/
def s3KeyExpired (cutoff : Int) (key : String) : Bool :=
  match goSplit key '/' with
  | _ :: _ :: dateStr :: _ =>
    match goParseDate dateStr with
    | some d => dateSec d < cutoff
    | none => false
  | _ => false

/-- The listing/marking phase of s3.go DeleteOldBackups: every listed key
whose date segment parses to a date before the cutoff, in listing order. -/
def s3MarkExpired (keys : List String) (cutoff : Int) : List String :=
  keys.filter (fun k => s3KeyExpired cutoff k)

/-- s3.go: const maxBatchSize = 1000. -/
def maxBatchSize : Nat := 1000

/-- The batch slicing of the delete loop in s3.go DeleteOldBackups:
objectsToDelete[i:min(i+1000, len)] for i = 0, 1000, 2000, ... -/
def chunkBatches (l : List String) : List (List String) :=
  if l = [] then []
  else l.take maxBatchSize :: chunkBatches (l.drop maxBatchSize)
termination_by l.length
decreasing_by
  rename_i h
  have h2 : 0 < l.length := List.length_pos.mpr h
  simp only [List.length_drop, maxBatchSize]
  omega

/-- Result of one S3 DeleteObjects call: the deleted keys and the
per-object (key, message) failures. -/
structure DeleteObjectsOutput where
  deleted : List String
  errors : List (String × String)
deriving DecidableEq, Repr

/-- The delete loop of s3.go DeleteOldBackups: issue one backend call per
batch; a call-level error aborts with that error; per-object errors inside a
successful call are only logged as warnings and the loop continues. Returns
the calls issued and the accumulated per-object warnings. -/
def deleteBatchLoop (backend : List String → Except String DeleteObjectsOutput) :
    List (List String) → Except String (List (List String) × List (String × String))
  | [] => .ok ([], [])
  | b :: bs =>
    match backend b with
    | .error e => .error e
    | .ok out =>
      match deleteBatchLoop backend bs with
      | .error e => .error e
      | .ok (calls, warns) => .ok (b :: calls, out.errors ++ warns)

/-- Whether a key starts with the given segment (the key filtering of a
prefixed object listing), on character lists. -/
def goHasPrefix (s seg : String) : Bool :=
  seg.data.isPrefixOf s.data

/-- s3.go DeleteOldBackups: list the bucket under backupPrefix ++ "/",
mark expired keys, return nil at once when nothing is marked, otherwise
delete in batches. The oracle bucketKeys is the full bucket listing (the
paginated ListObjectsV2 walk is modelled as already flattened and
error-free); backend is the DeleteObjects call. Returns the marked keys,
the calls issued and the per-object warnings. -/
def s3DeleteOldBackups (bucketKeys : List String) (backupPrefix : String)
    (retentionDays : Nat) (nowSec : Int)
    (backend : List String → Except String DeleteObjectsOutput) :
    Except String (List String × List (List String) × List (String × String)) :=
  let cutoff := cutoffSec nowSec retentionDays
  let listed := bucketKeys.filter (fun k => goHasPrefix k (backupPrefix ++ "/"))
  let objectsToDelete := s3MarkExpired listed cutoff
  if objectsToDelete = [] then .ok (objectsToDelete, [], [])
  else
    match deleteBatchLoop backend (chunkBatches objectsToDelete) with
    | .error e => .error e
    | .ok (calls, warns) => .ok (objectsToDelete, calls, warns)

/-- One entry of a date-level directory listing in local storage. -/
structure DateDirEntry where
  name : String
  isDir : Bool
deriving DecidableEq, Repr

/-- One entry of the database-level directory listing in local storage;
dateEntries = none models a ReadDir failure on that database directory
(warned and skipped by the code). -/
structure DbDirEntry where
  name : String
  isDir : Bool
  dateEntries : Option (List DateDirEntry)
deriving DecidableEq, Repr

/-- Per-directory delete decision in local.go DeleteOldBackups: the name
must be ten characters with exactly two dashes, then parse as a date and
that date's midnight must be before the cutoff; otherwise skip (warn). -/
def localDateDirExpired (cutoff : Int) (dirName : String) : Bool :=
  if dirName.length = 10 ∧ dirName.data.count '-' = 2 then
    match goParseDate dirName with
    | some d => dateSec d < cutoff
    | none => false
  else false

/-- The inner loop of local.go DeleteOldBackups over one database
directory: delete (RemoveAll) each expired date directory; a RemoveAll
failure is logged and skipped. Returns the (database, dateDir) pairs
actually removed. -/
def localSweepDb (cutoff : Int) (removeOk : String → String → Bool)
    (dbName : String) (dateEntries : List DateDirEntry) : List (String × String) :=
  (dateEntries.filter (fun e =>
      e.isDir && localDateDirExpired cutoff e.name && removeOk dbName e.name)).map
    (fun e => (dbName, e.name))

/-- local.go DeleteOldBackups: return nil at once if the prefix root does
not exist; a ReadDir failure on the root is the only error; non-directory
entries and unreadable database directories are skipped; otherwise sweep
each database directory. Returns the removed (database, dateDir) pairs. -/
def localDeleteOldBackups (baseDirExists : Bool) (entries : Option (List DbDirEntry))
    (retentionDays : Nat) (nowSec : Int) (removeOk : String → String → Bool) :
    Except String (List (String × String)) :=
  let cutoff := cutoffSec nowSec retentionDays
  if !baseDirExists then .ok []
  else
    match entries with
    | none => .error "failed to read backup directory"
    | some es =>
      .ok ((es.filter (fun e => e.isDir)).flatMap (fun e =>
        match e.dateEntries with
        | none => []
        | some ds => localSweepDb cutoff removeOk e.name ds))

/-- s3.go UploadBackup: the destination key
backupPrefix/databaseName/timestamp[:10]/filename, where the timestamp is
time.Now() formatted as "2006-01-02_15-04-05" and filename is the base of
the local artifact path. -/
def uploadBackupKey (now : DateTime) (localFilePath backupPrefixArg databaseName : String) :
    String :=
  let timestamp := goFormatTimestamp now
  let filename := goBase localFilePath
  backupPrefixArg ++ "/" ++ databaseName ++ "/" ++ String.mk (timestamp.data.take 10) ++ "/" ++ filename

/-- Go filepath.Join for already-clean components: empty components are
skipped, the rest are joined with single slashes. -/
def goJoinParts : List String → String
  | [] => ""
  | [p] => p
  | p :: ps => p ++ "/" ++ goJoinParts ps

def goJoinList (ps : List String) : String :=
  goJoinParts (ps.filter (fun p => p ≠ ""))

/-- local.go SaveBackup: the destination path
Join(root, backupPrefix, databaseName, Format("2006-01-02")) joined with
the base filename of the local artifact path. -/
def saveBackupPath (root : String) (now : DateTime)
    (localFilePath backupPrefixArg databaseName : String) : String :=
  let filename := goBase localFilePath
  let dateDir := goFormatDate now
  let backupDir := goJoinList [root, backupPrefixArg, databaseName, dateDir]
  goJoinList [backupDir, filename]

/-- Modelled from the spec: the StorageKey layout common to both backends,
backupPrefix/databaseName/YYYY-MM-DD/originalFilename, with the date
segment taken from the clock at upload time and the filename the basename
of the local artifact path. Stated from the spec's words for the
refinement comparison of claim C6. -/
def specStorageKey (backupPrefixArg databaseName : String) (now : DateTime)
    (localFilePath : String) : String :=
  backupPrefixArg ++ "/" ++ databaseName ++ "/" ++ goFormatDate now ++ "/" ++ goBase localFilePath

/-! ## Backup orchestrator (performBackup and the pre-flight gate in cmd/main.go) -/

/-- Oracle for one database's external calls inside performBackup:
CreateBackup either yields a local artifact path or fails; the storage
transfer (UploadBackup or SaveBackup) either succeeds or fails; the
best-effort CleanupBackup outcome is recorded but never fatal. -/
structure DbEnv where
  dumpResult : Option String
  uploadOk : Bool
  cleanupOk : Bool
deriving DecidableEq, Repr

/-- Observable calls made by performBackup, tagged with the database index. -/
inductive BackupEvent where
  | createBackup (idx : Nat) (ok : Bool)
  | saveArtifact (idx : Nat) (databaseName : String) (ok : Bool)
  | cleanupArtifact (idx : Nat)
  | deleteOldBackups (ok : Bool)
deriving DecidableEq, Repr

/-- Recognizes the retention-sweep call in a trace. -/
def isSweepEvent : BackupEvent → Bool
  | .deleteOldBackups _ => true
  | _ => false

/-- performBackup lines 293-296 (and performLambdaBackup lines 313-316):
the database-name segment of the storage destination is
strings.Split(filepath.Base(backupPath), "_")[0]. -/
def deriveDatabaseName (backupPath : String) : String :=
  (goSplit (goBase backupPath) '_').headD ""

/-- One iteration of the per-database loop in performBackup: a dump failure
counts one failure and moves on; on dump success the artifact is saved
under the derived database name; a save failure triggers a best-effort
cleanup and counts one failure; on success the artifact is cleaned up and
one success is counted. Returns (successes, failures, events). -/
def performDbStep (idx : Nat) (env : DbEnv) : Nat × Nat × List BackupEvent :=
  match env.dumpResult with
  | none => (0, 1, [.createBackup idx false])
  | some backupPath =>
    let databaseName := deriveDatabaseName backupPath
    if env.uploadOk then
      (1, 0, [.createBackup idx true, .saveArtifact idx databaseName true, .cleanupArtifact idx])
    else
      (0, 1, [.createBackup idx true, .saveArtifact idx databaseName false, .cleanupArtifact idx])

/-- The sequential per-database loop of performBackup, accumulating counts
and the event trace in configuration order. -/
def backupLoop (idx : Nat) : List DbEnv → Nat × Nat × List BackupEvent
  | [] => (0, 0, [])
  | env :: rest =>
    let step := performDbStep idx env
    let tail := backupLoop (idx + 1) rest
    (step.1 + tail.1, step.2.1 + tail.2.1, step.2.2 ++ tail.2.2)

/-- The run summary of one performBackup invocation. -/
structure BackupSummary where
  successfulBackups : Nat
  failedBackups : Nat
  events : List BackupEvent
  overallError : Bool
deriving DecidableEq, Repr

/-- cmd/main.go performBackup: run the per-database loop, then exactly one
DeleteOldBackups sweep whose failure (sweepOk = false) is only warned, and
return an error iff failedBackups > 0. -/
def performBackup (dbs : List DbEnv) (sweepOk : Bool) : BackupSummary :=
  let loop := backupLoop 0 dbs
  { successfulBackups := loop.1
    failedBackups := loop.2.1
    events := loop.2.2 ++ [.deleteOldBackups sweepOk]
    overallError := decide (0 < loop.2.1) }

/-- Whether one database's backup step fails (dump creation or storage
transfer). -/
def dbStepFails (env : DbEnv) : Bool :=
  env.dumpResult.isNone || !env.uploadOk

/-- Oracle for one database's pre-flight connection test in
testConnections: the test is a full CreateBackup plus best-effort cleanup
of the test artifact. -/
structure TestDbEnv where
  dumpResult : Option String
  cleanupOk : Bool
deriving DecidableEq, Repr

/-- Observable calls made by the pre-flight phase. -/
inductive PreEvent where
  | storageTest (ok : Bool)
  | dbTest (idx : Nat) (ok : Bool)
  | dbTestCleanup (idx : Nat)
deriving DecidableEq, Repr

/-- The per-database part of testConnections: the first failing test
returns an error immediately (later databases are not tested); cleanup of
the test artifact is best-effort. -/
def testLoop (idx : Nat) : List TestDbEnv → Bool × List PreEvent
  | [] => (true, [])
  | t :: rest =>
    match t.dumpResult with
    | none => (false, [.dbTest idx false])
    | some _ =>
      let tail := testLoop (idx + 1) rest
      (tail.1, .dbTest idx true :: .dbTestCleanup idx :: tail.2)

/-- cmd/main.go testConnections: the storage TestConnection first (its
failure returns before any database test), then every database in order. -/
def testConnections (storageOk : Bool) (tests : List TestDbEnv) : Bool × List PreEvent :=
  if storageOk then
    let loop := testLoop 0 tests
    (loop.1, .storageTest true :: loop.2)
  else (false, [.storageTest false])

/-- Observable calls of one whole run: pre-flight events then, only when
the gate passed, the performBackup events. -/
inductive RunEvent where
  | pre (e : PreEvent)
  | backup (e : BackupEvent)
deriving DecidableEq, Repr

/-- Outcome of one run entry (the -once path of main): fatal is the
non-zero-exit condition. -/
structure RunResult where
  fatal : Bool
  events : List RunEvent
deriving DecidableEq, Repr

/-- cmd/main.go main, -once path: testConnections failure is fatal before
performBackup is ever invoked; otherwise performBackup runs and its error
is fatal. (The scheduled path is gated by the same fatal testConnections
call before the cron is installed.) -/
def runOnce (storageOk : Bool) (tests : List TestDbEnv) (dbs : List DbEnv)
    (sweepOk : Bool) : RunResult :=
  let gate := testConnections storageOk tests
  if gate.1 then
    let s := performBackup dbs sweepOk
    { fatal := s.overallError, events := gate.2.map .pre ++ s.events.map .backup }
  else
    { fatal := true, events := gate.2.map .pre }

/-! ## Restore path (internal/restore/postgres.go) -/

/-- Oracle for the external calls made by ImportBackup: the artifact stat,
the target-database ping, the administrative connection, the three
administrative statements and the external restore tool. -/
structure ImportEnv where
  backupFileExists : Bool
  pingOk : Bool
  adminOpenOk : Bool
  terminateOk : Bool
  dropOk : Bool
  createOk : Bool
  restoreOk : Bool
  restoreOutput : String
deriving DecidableEq, Repr

/-- The failure kinds of ImportBackup, by the step that failed. -/
inductive ImportError where
  | artifactNotFound
  | connectionFailed
  | dropRecreateFailed
  | restoreFailed (output : String)
deriving DecidableEq, Repr

/-- Abstract state of the target database across the import steps. -/
inductive TargetState where
  | original
  | dropped
  | recreatedEmpty
  | restored
deriving DecidableEq, Repr

/-- Observable administrative and tool calls of one import. -/
inductive ImportEvent where
  | statBackupFile (found : Bool)
  | testConn (ok : Bool)
  | terminateSessions (ok : Bool)
  | dropDb (ok : Bool)
  | createDb (ok : Bool)
  | runRestore (ok : Bool)
deriving DecidableEq, Repr

/-- postgres.go dropDatabase: connect to the administrative postgres
database (an open failure fails the step), terminate other sessions bound
to the target (a failure here is only warned), DROP DATABASE IF EXISTS
(failure fails the step), CREATE DATABASE (failure fails the step, leaving
the target dropped). -/
def dropDatabase (env : ImportEnv) :
    Except ImportError Unit × TargetState × List ImportEvent :=
  if !env.adminOpenOk then (.error .dropRecreateFailed, .original, [])
  else
    let evs := [ImportEvent.terminateSessions env.terminateOk]
    if !env.dropOk then (.error .dropRecreateFailed, .original, evs ++ [.dropDb false])
    else if !env.createOk then
      (.error .dropRecreateFailed, .dropped, evs ++ [.dropDb true, .createDb false])
    else (.ok (), .recreatedEmpty, evs ++ [.dropDb true, .createDb true])

/-- postgres.go ImportBackup: stat the artifact, ping the target, run
dropDatabase only when dropExisting is set, then run the external restore
tool; each failing step returns its error and no step is rolled back. -/
def importBackup (dropExisting : Bool) (env : ImportEnv) :
    Except ImportError Unit × TargetState × List ImportEvent :=
  if !env.backupFileExists then
    (.error .artifactNotFound, .original, [.statBackupFile false])
  else if !env.pingOk then
    (.error .connectionFailed, .original, [.statBackupFile true, .testConn false])
  else
    let headEvs := [ImportEvent.statBackupFile true, ImportEvent.testConn true]
    let dropPhase :=
      if dropExisting then dropDatabase env
      else (.ok (), TargetState.original, [])
    match dropPhase with
    | (.error e, st, dropEvs) => (.error e, st, headEvs ++ dropEvs)
    | (.ok (), st, dropEvs) =>
      if env.restoreOk then
        (.ok (), .restored, headEvs ++ dropEvs ++ [.runRestore true])
      else
        (.error (.restoreFailed env.restoreOutput), st, headEvs ++ dropEvs ++ [.runRestore false])

/-! ## Auxiliary definitions used by the statements -/

/-- Modelled from the spec: the Dump Producer (package internal/backup,
whose source is not present under src/) names its artifact
scratchDir/databaseName_timestamp.sql with the timestamp formatted as
"2006-01-02_15-04-05". -/
def dumpArtifactPath (scratchDir databaseName : String) (ts : DateTime) : String :=
  scratchDir ++ "/" ++ (databaseName ++ "_" ++ goFormatTimestamp ts ++ ".sql")

/-- The database index an event is tagged with (the sweep carries none). -/
def eventIdx : BackupEvent → Nat
  | .createBackup i _ => i
  | .saveArtifact i _ _ => i
  | .cleanupArtifact i => i
  | .deleteOldBackups _ => 0

/-- A bucket key the sweep cannot date: fewer than three slash-separated
parts, or a third part that does not parse as a date. -/
def s3KeyMalformed (key : String) : Bool :=
  match goSplit key '/' with
  | _ :: _ :: dateStr :: _ => (goParseDate dateStr).isNone
  | _ => true

/-- The marked-for-deletion list of one S3 sweep, for use in statements. -/
def s3SweepMarked (bucketKeys : List String) (backupPrefixArg : String)
    (retentionDays : Nat) (nowSec : Int) : List String :=
  s3MarkExpired (bucketKeys.filter (fun k => goHasPrefix k (backupPrefixArg ++ "/")))
    (cutoffSec nowSec retentionDays)

/-! ## Helper lemmas: strings and splitting -/

theorem splitChar_ne_nil (sep : Char) (cs : List Char) : splitChar sep cs ≠ [] := by
  cases cs with
  | nil => simp [splitChar]
  | cons c cs =>
    simp only [splitChar]
    split <;> simp

theorem splitChar_headD (sep : Char) (cs : List Char) :
    (splitChar sep cs).headD [] = cs.takeWhile (fun c => c ≠ sep) := by
  induction cs with
  | nil => simp [splitChar]
  | cons c cs ih =>
    by_cases h : c = sep
    · subst h
      simp [splitChar, List.takeWhile_cons]
    · simp only [splitChar, if_neg h, List.headD_cons]
      rw [ih, List.takeWhile_cons]
      simp [h]

theorem splitChar_append (sep : Char) (a r : List Char) (ha : ∀ c ∈ a, c ≠ sep) :
    splitChar sep (a ++ sep :: r) = a :: splitChar sep r := by
  induction a with
  | nil => simp [splitChar]
  | cons c a ih =>
    have hc : c ≠ sep := ha c (by simp)
    rw [List.cons_append]
    simp only [splitChar, ih (fun x hx => ha x (by simp [hx]))]
    simp [hc]

theorem takeWhile_append_of_all (p : Char → Bool) (xs ys : List Char)
    (h : ∀ x ∈ xs, p x = true) :
    (xs ++ ys).takeWhile p = xs ++ ys.takeWhile p := by
  rw [List.takeWhile_append]
  simp [List.takeWhile_eq_self_iff.mpr h]

theorem takeWhile_append_of_not_all (p : Char → Bool) (xs ys : List Char)
    (h : xs.takeWhile p ≠ xs) :
    (xs ++ ys).takeWhile p = xs.takeWhile p := by
  rw [List.takeWhile_append, if_neg]
  intro hlen
  exact h (List.IsPrefix.eq_of_length (List.takeWhile_prefix p) hlen)

theorem takeWhile_ne_of_mem_underscore {l : List Char} (h : '_' ∈ l) :
    l.takeWhile (fun c => c ≠ '_') ≠ l := by
  intro he
  have := List.takeWhile_eq_self_iff.mp he '_' h
  simp at this

theorem goBase_append (dir fname : String) (hne : fname ≠ "")
    (hch : ∀ c ∈ fname.data, c ≠ '/') :
    goBase (dir ++ "/" ++ fname) = fname := by
  have hdata : (dir ++ "/" ++ fname).data = dir.data ++ '/' :: fname.data := by
    rw [String.data_append, String.data_append]
    show (dir.data ++ ['/']) ++ fname.data = _
    simp
  have hfd : fname.data ≠ [] := by
    intro h
    exact hne (String.ext (by simp [h]))
  have hpne : (dir ++ "/" ++ fname) ≠ "" := by
    intro h
    have h2 : (dir ++ "/" ++ fname).data = [] := by rw [h]
    rw [hdata] at h2
    simp at h2
  obtain ⟨c, cs, hcs⟩ := List.exists_cons_of_ne_nil (by simpa using hfd :
    fname.data.reverse ≠ [])
  have hcne : c ≠ '/' := by
    refine hch c ?_
    rw [← List.mem_reverse, hcs]
    simp
  have hrev : (dir ++ "/" ++ fname).data.reverse
      = c :: (cs ++ '/' :: dir.data.reverse) := by
    rw [hdata]
    simp [hcs]
  unfold goBase
  rw [if_neg hpne, hrev]
  simp only [List.dropWhile_cons]
  rw [if_neg (by simp [hcne] : ¬(decide (c = '/') = true))]
  rw [if_neg (by simp : ¬((c :: (cs ++ '/' :: dir.data.reverse) : List Char) = []))]
  have hmemrev : ∀ x ∈ c :: cs, (fun x => decide (x ≠ '/')) x = true := by
    intro x hx
    have hxf : x ∈ fname.data := by
      rw [← List.mem_reverse, hcs]
      exact hx
    simpa using hch x hxf
  have htake : List.takeWhile (fun x => decide (x ≠ '/')) ((c :: cs) ++ '/' :: dir.data.reverse)
      = c :: cs := by
    rw [takeWhile_append_of_all _ _ _ hmemrev, List.takeWhile_cons]
    simp
  rw [show (c :: (cs ++ '/' :: dir.data.reverse) : List Char)
        = (c :: cs) ++ '/' :: dir.data.reverse from rfl]
  rw [htake, ← hcs, List.reverse_reverse]

theorem goSplit_headD (s : String) (sep : Char) :
    (goSplit s sep).headD "" = String.mk (s.data.takeWhile (fun c => c ≠ sep)) := by
  unfold goSplit
  obtain ⟨x, xs, hx⟩ := List.exists_cons_of_ne_nil (splitChar_ne_nil sep s.data)
  rw [hx, List.map_cons, List.headD_cons]
  have h2 := splitChar_headD sep s.data
  rw [hx, List.headD_cons] at h2
  rw [h2]

/-! ## Helper lemmas: the orchestrator loop -/

theorem filter_length_partition {α : Type} (p : α → Bool) (l : List α) :
    (l.filter (fun e => !p e)).length + (l.filter p).length = l.length := by
  induction l with
  | nil => rfl
  | cons e l ih =>
    cases he : p e <;> simp [List.filter_cons, he, ← ih] <;> omega

theorem backupLoop_counts (idx : Nat) (l : List DbEnv) :
    (backupLoop idx l).1 = (l.filter (fun e => !dbStepFails e)).length ∧
    (backupLoop idx l).2.1 = (l.filter dbStepFails).length := by
  induction l generalizing idx with
  | nil => simp [backupLoop]
  | cons e l ih =>
    obtain ⟨ih1, ih2⟩ := ih (idx + 1)
    cases hd : e.dumpResult with
    | none =>
      have hf : dbStepFails e = true := by simp [dbStepFails, hd]
      simp [backupLoop, performDbStep, hd, hf, List.filter_cons, ih1, ih2]
      omega
    | some p =>
      cases hu : e.uploadOk with
      | false =>
        have hf : dbStepFails e = true := by simp [dbStepFails, hd, hu]
        simp [backupLoop, performDbStep, hd, hu, hf, List.filter_cons, ih1, ih2]
        omega
      | true =>
        have hf : dbStepFails e = false := by simp [dbStepFails, hd, hu]
        simp [backupLoop, performDbStep, hd, hu, hf, List.filter_cons, ih1, ih2]
        omega

theorem performDbStep_events (i : Nat) (env : DbEnv) :
    ∀ e ∈ (performDbStep i env).2.2, eventIdx e = i ∧ isSweepEvent e = false := by
  intro e he
  unfold performDbStep at he
  cases hd : env.dumpResult with
  | none =>
    rw [hd] at he
    simp at he
    subst he
    exact ⟨rfl, rfl⟩
  | some p =>
    rw [hd] at he
    by_cases hu : env.uploadOk = true
    · simp only [hu, if_true] at he
      simp at he
      rcases he with rfl | rfl | rfl <;> exact ⟨rfl, rfl⟩
    · simp only [eq_false_of_ne_true hu] at he
      simp at he
      rcases he with rfl | rfl | rfl <;> exact ⟨rfl, rfl⟩

theorem backupLoop_eventIdx (idx : Nat) (l : List DbEnv) :
    ∀ e ∈ (backupLoop idx l).2.2,
      (idx ≤ eventIdx e ∧ eventIdx e < idx + l.length) ∧ isSweepEvent e = false := by
  induction l generalizing idx with
  | nil => simp [backupLoop]
  | cons env l ih =>
    intro e he
    simp only [backupLoop, List.mem_append] at he
    rcases he with he | he
    · obtain ⟨h1, h2⟩ := performDbStep_events idx env e he
      refine ⟨⟨by omega, ?_⟩, h2⟩
      rw [h1]
      simp only [List.length_cons]
      omega
    · obtain ⟨⟨h1, h2⟩, h3⟩ := ih (idx + 1) e he
      refine ⟨⟨by omega, ?_⟩, h3⟩
      simp only [List.length_cons]
      omega

theorem backupLoop_decompose (l : List DbEnv) (idx j : Nat) (h : j < l.length) :
    (backupLoop idx l).2.2 =
      (backupLoop idx (l.take j)).2.2 ++ (performDbStep (idx + j) (l.get ⟨j, h⟩)).2.2
        ++ (backupLoop (idx + j + 1) (l.drop (j + 1))).2.2 := by
  induction l generalizing idx j with
  | nil => simp at h
  | cons env l ih =>
    cases j with
    | zero =>
      simp [backupLoop, List.get]
    | succ j =>
      have hj : j < l.length := by simpa using h
      have e1 : idx + 1 + j = idx + (j + 1) := by omega
      simp only [List.take_succ_cons, List.drop_succ_cons, List.get, backupLoop]
      rw [ih (idx + 1) j hj, e1]
      simp [List.append_assoc]

theorem testLoop_ok (idx : Nat) (l : List TestDbEnv) :
    (testLoop idx l).1 = l.all (fun t => t.dumpResult.isSome) := by
  induction l generalizing idx with
  | nil => rfl
  | cons t l ih =>
    cases ht : t.dumpResult <;> simp [testLoop, ht, ih (idx + 1)]

/-! ## Helper lemmas: batching -/

theorem chunkBatches_flatten (l : List String) : (chunkBatches l).flatten = l := by
  rw [chunkBatches]
  split
  · simp [*]
  · rw [List.flatten_cons, chunkBatches_flatten (l.drop maxBatchSize), List.take_append_drop]
termination_by l.length
decreasing_by
  rename_i h
  have h2 : 0 < l.length := List.length_pos.mpr h
  simp only [List.length_drop, maxBatchSize]
  omega

theorem chunkBatches_le (l : List String) :
    ∀ c ∈ chunkBatches l, c.length ≤ maxBatchSize := by
  induction l using chunkBatches.induct with
  | case1 =>
    rw [chunkBatches]
    simp
  | case2 l h ih =>
    rw [chunkBatches, if_neg h]
    intro c hc
    rcases List.mem_cons.mp hc with rfl | hmem
    · rw [List.length_take]
      exact min_le_left _ _
    · exact ih c hmem

theorem deleteBatchLoop_ok (outFn : List String → DeleteObjectsOutput)
    (backend : List String → Except String DeleteObjectsOutput)
    (hb : ∀ b, backend b = .ok (outFn b)) (bs : List (List String)) :
    deleteBatchLoop backend bs = .ok (bs, bs.flatMap (fun b => (outFn b).errors)) := by
  induction bs with
  | nil => rfl
  | cons b bs ih => simp [deleteBatchLoop, hb b, ih]

theorem s3DeleteOldBackups_ok (bucketKeys : List String) (backupPrefixArg : String)
    (retentionDays : Nat) (nowSec : Int)
    (outFn : List String → DeleteObjectsOutput)
    (backend : List String → Except String DeleteObjectsOutput)
    (hb : ∀ b, backend b = .ok (outFn b)) :
    s3DeleteOldBackups bucketKeys backupPrefixArg retentionDays nowSec backend =
      .ok (s3SweepMarked bucketKeys backupPrefixArg retentionDays nowSec,
           chunkBatches (s3SweepMarked bucketKeys backupPrefixArg retentionDays nowSec),
           (chunkBatches (s3SweepMarked bucketKeys backupPrefixArg retentionDays nowSec)).flatMap
             (fun b => (outFn b).errors)) := by
  simp only [s3DeleteOldBackups, s3SweepMarked]
  by_cases hm : s3MarkExpired
      (bucketKeys.filter (fun k => goHasPrefix k (backupPrefixArg ++ "/")))
      (cutoffSec nowSec retentionDays) = []
  · rw [if_pos hm, hm]
    rw [show chunkBatches ([] : List String) = [] from by rw [chunkBatches]; simp]
    simp
  · rw [if_neg hm, deleteBatchLoop_ok outFn backend hb]

/-! ## Helper lemmas: the retention boundary arithmetic -/

theorem boundary_arith (dd T : Int) (s retentionDays : Nat) (hs : s < 86400) :
    (dd * secPerDay < cutoffSec (T * secPerDay + (s : Int)) retentionDays) ↔
      (dd < T - retentionDays ∨ (dd = T - retentionDays ∧ 0 < (s : Int))) := by
  simp only [cutoffSec, secPerDay]
  omega

theorem performDbStep_create_mem (i : Nat) (env : DbEnv) :
    BackupEvent.createBackup i env.dumpResult.isSome ∈ (performDbStep i env).2.2 := by
  unfold performDbStep
  cases env.dumpResult with
  | none => simp
  | some p =>
    by_cases hu : env.uploadOk = true
    · simp [hu]
    · simp [eq_false_of_ne_true hu]

theorem performDbStep_none (i : Nat) (env : DbEnv) (h : env.dumpResult = none) :
    performDbStep i env = (0, 1, [.createBackup i false]) := by
  unfold performDbStep
  rw [h]

theorem performDbStep_some_fail (i : Nat) (env : DbEnv) (p : String)
    (h : env.dumpResult = some p) (hu : env.uploadOk = false) :
    performDbStep i env =
      (0, 1, [.createBackup i true, .saveArtifact i (deriveDatabaseName p) false,
              .cleanupArtifact i]) := by
  unfold performDbStep
  rw [h]
  simp [hu]

/-! ## Claim theorems -/

/-- C1: for every configured database list on which K of the N per-database
backup steps fail (dump creation or storage transfer), one performBackup
run reports successCount = N - K and failureCount = K, invokes the
retention sweep exactly once and after all per-database steps, and returns
an error to the caller iff failureCount > 0 (independently of the sweep's
own outcome). -/
theorem claim_C1_run_summary (dbs : List DbEnv) (sweepOk : Bool) :
    (performBackup dbs sweepOk).successfulBackups
        = dbs.length - (dbs.filter dbStepFails).length ∧
    (performBackup dbs sweepOk).failedBackups = (dbs.filter dbStepFails).length ∧
    (performBackup dbs sweepOk).events.filter isSweepEvent
        = [.deleteOldBackups sweepOk] ∧
    (performBackup dbs sweepOk).events.getLast? = some (.deleteOldBackups sweepOk) ∧
    ((performBackup dbs sweepOk).overallError = true
        ↔ 0 < (dbs.filter dbStepFails).length) := by
  obtain ⟨h1, h2⟩ := backupLoop_counts 0 dbs
  have hnosweep : ∀ e ∈ (backupLoop 0 dbs).2.2, isSweepEvent e = false :=
    fun e he => (backupLoop_eventIdx 0 dbs e he).2
  refine ⟨?_, ?_, ?_, ?_, ?_⟩
  · simp only [performBackup, h1]
    have := filter_length_partition dbStepFails dbs
    omega
  · simp [performBackup, h2]
  · simp only [performBackup]
    rw [List.filter_append, List.filter_eq_nil_iff.mpr (by
      intro e he
      simp [hnosweep e he])]
    simp [isSweepEvent]
  · simp only [performBackup]
    rw [List.getLast?_append]
    rfl
  · simp [performBackup, h2]

/-- C5: per-database failures are isolated: every database is attempted
regardless of earlier failures; a dump failure at position i produces no
storage transfer for i; a transfer failure at i is followed by the
best-effort local cleanup before the failure is counted; and the failure
count is exactly the number of failing per-database steps (no error
escapes a per-database step). -/
theorem claim_C5_failure_isolation (dbs : List DbEnv) (sweepOk : Bool) :
    (∀ i (hi : i < dbs.length),
      BackupEvent.createBackup i (dbs.get ⟨i, hi⟩).dumpResult.isSome
        ∈ (performBackup dbs sweepOk).events) ∧
    (∀ i (hi : i < dbs.length), (dbs.get ⟨i, hi⟩).dumpResult = none →
      ∀ n b, BackupEvent.saveArtifact i n b ∉ (performBackup dbs sweepOk).events) ∧
    (∀ i (hi : i < dbs.length) (p : String), (dbs.get ⟨i, hi⟩).dumpResult = some p →
      (dbs.get ⟨i, hi⟩).uploadOk = false →
      [BackupEvent.createBackup i true,
       BackupEvent.saveArtifact i (deriveDatabaseName p) false,
       BackupEvent.cleanupArtifact i] <:+: (performBackup dbs sweepOk).events) ∧
    (performBackup dbs sweepOk).failedBackups = (dbs.filter dbStepFails).length := by
  refine ⟨?_, ?_, ?_, (backupLoop_counts 0 dbs).2⟩
  · intro i hi
    have hdec := backupLoop_decompose dbs 0 i hi
    simp only [performBackup, List.mem_append]
    left
    rw [hdec]
    simp only [List.mem_append]
    left; right
    simpa using performDbStep_create_mem i (dbs.get ⟨i, hi⟩)
  · intro i hi hnone n b hmem
    simp only [performBackup, List.mem_append] at hmem
    rcases hmem with hmem | hmem
    · rw [backupLoop_decompose dbs 0 i hi] at hmem
      simp only [List.mem_append, Nat.zero_add] at hmem
      rcases hmem with (hmem | hmem) | hmem
      · have := (backupLoop_eventIdx 0 (dbs.take i) _ hmem).1.2
        have hlen : (dbs.take i).length = i := by
          rw [List.length_take]
          omega
        simp [eventIdx, hlen] at this
      · rw [performDbStep_none i _ hnone] at hmem
        simp at hmem
      · have := (backupLoop_eventIdx (i + 1) (dbs.drop (i + 1)) _ hmem).1.1
        simp [eventIdx] at this
    · simp at hmem
  · intro i hi p hp hu
    have hdec := backupLoop_decompose dbs 0 i hi
    simp only [Nat.zero_add] at hdec
    rw [performDbStep_some_fail i _ p hp hu] at hdec
    refine ⟨(backupLoop 0 (dbs.take i)).2.2,
            (backupLoop (i + 1) (dbs.drop (i + 1))).2.2 ++ [.deleteOldBackups sweepOk], ?_⟩
    simp only [performBackup]
    rw [hdec]
    simp [List.append_assoc]

/-- C4: if the storage connection test or any configured database's
pre-flight connection test fails, the run aborts fatally and performBackup
is never invoked: no backup-phase event (in particular no storage
transfer) appears in the run's trace. -/
theorem claim_C4_preflight_gate (storageOk : Bool) (tests : List TestDbEnv)
    (dbs : List DbEnv) (sweepOk : Bool)
    (hfail : storageOk = false ∨ ∃ t ∈ tests, t.dumpResult = none) :
    (runOnce storageOk tests dbs sweepOk).fatal = true ∧
    ∀ e, RunEvent.backup e ∉ (runOnce storageOk tests dbs sweepOk).events := by
  have hgate : (testConnections storageOk tests).1 = false := by
    cases storageOk with
    | false => rfl
    | true =>
      rcases hfail with h | ⟨t, ht, hd⟩
      · simp at h
      · simp [testConnections, testLoop_ok]
        exact ⟨t, ht, hd⟩
  have hrun : runOnce storageOk tests dbs sweepOk =
      { fatal := true, events := (testConnections storageOk tests).2.map .pre } := by
    simp only [runOnce]
    rw [hgate]
    simp
  rw [hrun]
  refine ⟨rfl, ?_⟩
  intro e hmem
  simp at hmem

/-- C3 counterexample: the claim says the drop/recreate phase fails if any
of terminate-sessions, DROP or CREATE fails, but in the code a
terminate-sessions failure is only logged as a warning: with every other
step succeeding, the import succeeds even though terminate-sessions
failed. -/
theorem claim_C3_counterexample :
    (importBackup true ⟨true, true, true, false, true, true, true, "ok"⟩).1
        = .ok () ∧
    ImportEvent.terminateSessions false
        ∈ (importBackup true ⟨true, true, true, false, true, true, true, "ok"⟩).2.2 := by
  refine ⟨rfl, ?_⟩
  show ImportEvent.terminateSessions false ∈
    [ImportEvent.statBackupFile true, ImportEvent.testConn true,
     ImportEvent.terminateSessions false, ImportEvent.dropDb true,
     ImportEvent.createDb true, ImportEvent.runRestore true]
  simp

/-- C3 amended: ImportBackup performs its steps in the fixed order
stat artifact, ping target, (when dropExisting) terminate sessions then
DROP then CREATE, then the external restore tool; a missing artifact, a
failed ping, a failed DROP or CREATE, or a failing restore tool each fail
the import at that step, while a terminate-sessions failure is only
warned; and there is no rollback: a restore failure after a successful
drop+recreate leaves the target database empty. -/
theorem claim_C3_import_order (dropExisting : Bool) (env : ImportEnv) :
    (env.backupFileExists = false →
      importBackup dropExisting env
        = (.error .artifactNotFound, .original, [.statBackupFile false])) ∧
    (env.backupFileExists = true → env.pingOk = false →
      importBackup dropExisting env
        = (.error .connectionFailed, .original, [.statBackupFile true, .testConn false])) ∧
    (env.backupFileExists = true → env.pingOk = true → env.adminOpenOk = true →
      env.dropOk = false →
      (importBackup true env).1 = .error .dropRecreateFailed ∧
      (importBackup true env).2.1 = .original ∧
      ∀ b, ImportEvent.runRestore b ∉ (importBackup true env).2.2) ∧
    (env.backupFileExists = true → env.pingOk = true → env.adminOpenOk = true →
      env.dropOk = true → env.createOk = false →
      (importBackup true env).1 = .error .dropRecreateFailed ∧
      (importBackup true env).2.1 = .dropped ∧
      ∀ b, ImportEvent.runRestore b ∉ (importBackup true env).2.2) ∧
    (env.backupFileExists = true → env.pingOk = true → env.adminOpenOk = true →
      env.dropOk = true → env.createOk = true →
      (importBackup true env).2.2
        = [.statBackupFile true, .testConn true, .terminateSessions env.terminateOk,
           .dropDb true, .createDb true, .runRestore env.restoreOk] ∧
      ((importBackup true env).1 = .ok () ↔ env.restoreOk = true)) ∧
    (env.backupFileExists = true → env.pingOk = true → env.adminOpenOk = true →
      env.dropOk = true → env.createOk = true → env.restoreOk = false →
      importBackup true env
        = (.error (.restoreFailed env.restoreOutput), .recreatedEmpty,
           [.statBackupFile true, .testConn true, .terminateSessions env.terminateOk,
            .dropDb true, .createDb true, .runRestore false])) ∧
    (env.backupFileExists = true → env.pingOk = true →
      (importBackup false env).2.2
        = [.statBackupFile true, .testConn true, .runRestore env.restoreOk]) := by
  refine ⟨?_, ?_, ?_, ?_, ?_, ?_, ?_⟩
  · intro h1
    simp [importBackup, h1]
  · intro h1 h2
    simp [importBackup, h1, h2]
  · intro h1 h2 h3 h4
    simp [importBackup, dropDatabase, h1, h2, h3, h4]
  · intro h1 h2 h3 h4 h5
    simp [importBackup, dropDatabase, h1, h2, h3, h4, h5]
  · intro h1 h2 h3 h4 h5
    cases hr : env.restoreOk <;>
      simp [importBackup, dropDatabase, h1, h2, h3, h4, h5, hr]
  · intro h1 h2 h3 h4 h5 h6
    simp [importBackup, dropDatabase, h1, h2, h3, h4, h5, h6]
  · intro h1 h2
    cases hr : env.restoreOk <;> simp [importBackup, h1, h2, hr]

/-- C3 witness: a concrete import where drop+recreate succeed and the
restore tool fails leaves the recreated-empty target and the restore
error. -/
theorem claim_C3_import_order_witness :
    importBackup true ⟨true, true, true, true, true, true, false, "boom"⟩
      = (.error (.restoreFailed "boom"), .recreatedEmpty,
         [.statBackupFile true, .testConn true, .terminateSessions true,
          .dropDb true, .createDb true, .runRestore false]) :=
  (claim_C3_import_order true ⟨true, true, true, true, true, true, false, "boom"⟩).2.2.2.2.2.1
    rfl rfl rfl rfl rfl rfl

/-- C2 counterexample: the cutoff retains the sweep's time of day, so an
artifact whose date segment equals exactly today minus the retention
window is deleted by both backends when the sweep runs after midnight
(here 01:00 on 2026-10-11 with a 7-day window and segment 2026-10-04),
contradicting the claimed exclusive boundary. -/
theorem claim_C2_counterexample :
    daysFromCivil ⟨2026, 10, 4⟩ = daysFromCivil ⟨2026, 10, 11⟩ - 7 ∧
    s3KeyExpired (cutoffSec (dateSec ⟨2026, 10, 11⟩ + 3600) 7)
      "backups/db1/2026-10-04/db1_2026-10-04_01-00-00.sql" = true ∧
    localDateDirExpired (cutoffSec (dateSec ⟨2026, 10, 11⟩ + 3600) 7)
      "2026-10-04" = true := by
  refine ⟨by decide, by decide, by decide⟩

/-- C2 amended: with the sweep running on day T at s seconds past local
midnight, both DeleteOldBackups variants delete an artifact whose date
segment parses to D iff midnight of D is strictly before the instant
now minus retentionDays days; at date granularity that is: D is strictly
older than today minus the window, or D equals today minus the window and
the sweep runs strictly after midnight. Ties are therefore deleted except
for a sweep at exactly midnight. -/
theorem claim_C2_retention_boundary (p db ds rest : String) (D : Date)
    (T : Int) (s retentionDays : Nat)
    (hp : ∀ c ∈ p.data, c ≠ '/') (hdb : ∀ c ∈ db.data, c ≠ '/')
    (hds : ∀ c ∈ ds.data, c ≠ '/')
    (hParse : goParseDate ds = some D)
    (hlen : ds.length = 10) (hcount : ds.data.count '-' = 2)
    (hs : s < 86400) :
    (s3KeyExpired (cutoffSec (T * secPerDay + (s : Int)) retentionDays)
        (p ++ "/" ++ db ++ "/" ++ ds ++ "/" ++ rest) = true
      ↔ (daysFromCivil D < T - retentionDays
          ∨ (daysFromCivil D = T - retentionDays ∧ 0 < (s : Int)))) ∧
    (localDateDirExpired (cutoffSec (T * secPerDay + (s : Int)) retentionDays) ds = true
      ↔ (daysFromCivil D < T - retentionDays
          ∨ (daysFromCivil D = T - retentionDays ∧ 0 < (s : Int)))) := by
  have harith := boundary_arith (daysFromCivil D) T s retentionDays hs
  have hkey : (p ++ "/" ++ db ++ "/" ++ ds ++ "/" ++ rest).data
      = p.data ++ '/' :: (db.data ++ '/' :: (ds.data ++ '/' :: rest.data)) := by
    simp [String.data_append]
  have hsplit : goSplit (p ++ "/" ++ db ++ "/" ++ ds ++ "/" ++ rest) '/'
      = p :: db :: ds :: (splitChar '/' rest.data).map String.mk := by
    unfold goSplit
    rw [hkey]
    rw [splitChar_append '/' p.data _ hp]
    rw [splitChar_append '/' db.data _ hdb]
    rw [splitChar_append '/' ds.data _ hds]
    rfl
  constructor
  · rw [show s3KeyExpired (cutoffSec (T * secPerDay + (s : Int)) retentionDays)
          (p ++ "/" ++ db ++ "/" ++ ds ++ "/" ++ rest)
        = decide (dateSec D < cutoffSec (T * secPerDay + (s : Int)) retentionDays) from by
      unfold s3KeyExpired
      rw [hsplit]
      simp [hParse]]
    simp only [decide_eq_true_eq, dateSec]
    exact harith
  · unfold localDateDirExpired
    rw [if_pos ⟨hlen, hcount⟩, hParse]
    simp only [decide_eq_true_eq, dateSec]
    exact harith

/-- C2 witness: the amended boundary characterization evaluated for a
sweep at 2026-10-11 01:00 with a 7-day window over the tied date segment
2026-10-04. -/
theorem claim_C2_retention_boundary_witness :
    (s3KeyExpired (cutoffSec ((20737 : Int) * secPerDay + ((3600 : Nat) : Int)) 7)
        ("backups" ++ "/" ++ "db1" ++ "/" ++ "2026-10-04" ++ "/" ++ "a.sql") = true
      ↔ (daysFromCivil ⟨2026, 10, 4⟩ < (20737 : Int) - (7 : Nat)
          ∨ (daysFromCivil ⟨2026, 10, 4⟩ = (20737 : Int) - (7 : Nat)
              ∧ 0 < ((3600 : Nat) : Int)))) ∧
    (localDateDirExpired (cutoffSec ((20737 : Int) * secPerDay + ((3600 : Nat) : Int)) 7)
        "2026-10-04" = true
      ↔ (daysFromCivil ⟨2026, 10, 4⟩ < (20737 : Int) - (7 : Nat)
          ∨ (daysFromCivil ⟨2026, 10, 4⟩ = (20737 : Int) - (7 : Nat)
              ∧ 0 < ((3600 : Nat) : Int)))) :=
  claim_C2_retention_boundary "backups" "db1" "2026-10-04" "a.sql" ⟨2026, 10, 4⟩
    20737 3600 7 (by decide) (by decide) (by decide) (by decide) (by decide)
    (by decide) (by decide)

theorem goFormatDate_data_length (t : DateTime) : (goFormatDate t).data.length = 10 := by
  simp [goFormatDate, pad4, pad2, String.data_append]

theorem goFormatTimestamp_take (t : DateTime) :
    (goFormatTimestamp t).data.take 10 = (goFormatDate t).data := by
  have hd : (goFormatTimestamp t).data
      = (goFormatDate t).data ++ ("_" ++ pad2 t.hour ++ "-" ++ pad2 t.minute
          ++ "-" ++ pad2 t.second).data := by
    simp [goFormatTimestamp, String.data_append]
  rw [hd, ← goFormatDate_data_length t, List.take_left]

theorem append_ne_empty (a b : String) (h : a ≠ "") : a ++ b ≠ "" := by
  intro hab
  apply h
  apply String.ext
  have h2 : (a ++ b).data = [] := by rw [hab]
  rw [String.data_append] at h2
  simp at h2
  simp [h2.1]

theorem goFormatDate_ne_empty (t : DateTime) : goFormatDate t ≠ "" := by
  intro h
  have h2 := goFormatDate_data_length t
  rw [h] at h2
  simp at h2

/-- C6: both storage backends place a saved artifact at the identical
relative destination backupPrefix/databaseName/YYYY-MM-DD/filename, where
the filename is the basename of the local artifact path and the date
segment is the clock reading at upload time (the filename, with whatever
timestamp the dump embedded, is passed through unchanged); the filesystem
variant merely prepends its root. -/
theorem claim_C6_storage_layout (now : DateTime)
    (root dir fname backupPrefixArg databaseName : String)
    (hf : fname ≠ "") (hfc : ∀ c ∈ fname.data, c ≠ '/')
    (hroot : root ≠ "") (hbp : backupPrefixArg ≠ "") (hdb : databaseName ≠ "") :
    uploadBackupKey now (dir ++ "/" ++ fname) backupPrefixArg databaseName
      = specStorageKey backupPrefixArg databaseName now (dir ++ "/" ++ fname) ∧
    saveBackupPath root now (dir ++ "/" ++ fname) backupPrefixArg databaseName
      = root ++ "/" ++ specStorageKey backupPrefixArg databaseName now (dir ++ "/" ++ fname) := by
  have hbase : goBase (dir ++ "/" ++ fname) = fname := goBase_append dir fname hf hfc
  have htake : String.mk ((goFormatTimestamp now).data.take 10) = goFormatDate now := by
    rw [goFormatTimestamp_take]
  constructor
  · simp only [uploadBackupKey, specStorageKey, hbase, htake]
  · have hdd : goFormatDate now ≠ "" := goFormatDate_ne_empty now
    have hjoin1 : goJoinList [root, backupPrefixArg, databaseName, goFormatDate now]
        = root ++ "/" ++ (backupPrefixArg ++ "/" ++ (databaseName ++ "/" ++ goFormatDate now)) := by
      simp [goJoinList, goJoinParts, hroot, hbp, hdb, hdd]
    have hbd : root ++ "/" ++ (backupPrefixArg ++ "/" ++ (databaseName ++ "/" ++ goFormatDate now)) ≠ "" :=
      append_ne_empty _ _ (append_ne_empty _ _ hroot)
    have hjoin2 : goJoinList
        [root ++ "/" ++ (backupPrefixArg ++ "/" ++ (databaseName ++ "/" ++ goFormatDate now)), fname]
        = root ++ "/" ++ (backupPrefixArg ++ "/" ++ (databaseName ++ "/" ++ goFormatDate now))
            ++ "/" ++ fname := by
      simp [goJoinList, goJoinParts, hbd, hf]
    simp only [saveBackupPath, hbase, hjoin1, hjoin2, specStorageKey]
    apply String.ext
    simp [String.data_append]

theorem malformed_not_expired (cutoff : Int) (k : String)
    (h : s3KeyMalformed k = true) : s3KeyExpired cutoff k = false := by
  unfold s3KeyMalformed at h
  unfold s3KeyExpired
  rcases hsp : goSplit k '/' with _ | ⟨a, _ | ⟨b, _ | ⟨c, l⟩⟩⟩
  · simp
  · simp
  · simp
  · rw [hsp] at h
    simp only at h
    cases hp : goParseDate c with
    | none => simp [hp]
    | some d =>
      rw [hp] at h
      simp at h

/-- C7: a sweep over a backend containing malformed identifiers (wrong
path shape or unparseable date segment) skips them, still deletes every
other eligible entry, and returns success instead of failing: shown for
the object-storage variant (given call-level success from the backend)
and for the filesystem variant (given removals succeed). -/
theorem claim_C7_malformed_tolerance
    (bucketKeys : List String) (backupPrefixArg : String)
    (retentionDays : Nat) (nowSec : Int)
    (outFn : List String → DeleteObjectsOutput)
    (backend : List String → Except String DeleteObjectsOutput)
    (hb : ∀ b, backend b = .ok (outFn b))
    (es : List DbDirEntry) (removeOk : String → String → Bool)
    (hr : ∀ a b, removeOk a b = true) :
    (∃ calls warns,
      s3DeleteOldBackups bucketKeys backupPrefixArg retentionDays nowSec backend
        = .ok (s3SweepMarked bucketKeys backupPrefixArg retentionDays nowSec, calls, warns)) ∧
    (∀ k, s3KeyMalformed k = true →
      k ∉ s3SweepMarked bucketKeys backupPrefixArg retentionDays nowSec) ∧
    (∀ k ∈ bucketKeys, goHasPrefix k (backupPrefixArg ++ "/") = true →
      s3KeyExpired (cutoffSec nowSec retentionDays) k = true →
      k ∈ s3SweepMarked bucketKeys backupPrefixArg retentionDays nowSec) ∧
    (∃ removed,
      localDeleteOldBackups true (some es) retentionDays nowSec removeOk = .ok removed ∧
      (∀ dbn dn, (dbn, dn) ∈ removed →
        localDateDirExpired (cutoffSec nowSec retentionDays) dn = true) ∧
      (∀ e ∈ es, e.isDir = true → ∀ ds, e.dateEntries = some ds →
        ∀ de ∈ ds, de.isDir = true →
        localDateDirExpired (cutoffSec nowSec retentionDays) de.name = true →
        (e.name, de.name) ∈ removed)) := by
  refine ⟨⟨_, _, s3DeleteOldBackups_ok bucketKeys backupPrefixArg retentionDays nowSec
      outFn backend hb⟩, ?_, ?_, ?_⟩
  · intro k hk hmem
    simp only [s3SweepMarked, s3MarkExpired, List.mem_filter] at hmem
    rw [malformed_not_expired _ k hk] at hmem
    simp at hmem
  · intro k hk hpre hexp
    simp only [s3SweepMarked, s3MarkExpired, List.mem_filter]
    exact ⟨⟨hk, hpre⟩, hexp⟩
  · refine ⟨(es.filter (fun e => e.isDir)).flatMap (fun e =>
      match e.dateEntries with
      | none => []
      | some ds => localSweepDb (cutoffSec nowSec retentionDays) removeOk e.name ds), ?_, ?_, ?_⟩
    · simp [localDeleteOldBackups]
    · intro dbn dn hmem
      simp only [List.mem_flatMap, List.mem_filter] at hmem
      obtain ⟨e, ⟨hein, hedir⟩, hmem⟩ := hmem
      cases hde : e.dateEntries with
      | none => rw [hde] at hmem; simp at hmem
      | some ds =>
        rw [hde] at hmem
        simp only [localSweepDb, List.mem_map, List.mem_filter] at hmem
        obtain ⟨de, ⟨_, hcond⟩, heq⟩ := hmem
        simp only [Bool.and_eq_true] at hcond
        obtain ⟨⟨_, hexp⟩, _⟩ := hcond
        have hdn : dn = de.name := by
          have := congrArg Prod.snd heq
          simpa using this.symm
        rw [hdn]
        exact hexp
    · intro e hein hedir ds hds de hdein hdedir hexp
      simp only [List.mem_flatMap, List.mem_filter]
      refine ⟨e, ⟨hein, hedir⟩, ?_⟩
      rw [hds]
      simp only [localSweepDb, List.mem_map, List.mem_filter]
      exact ⟨de, ⟨hdein, by simp [hdedir, hexp, hr]⟩, rfl⟩

/-- C8: the object-storage sweep issues its deletions in batches of at
most 1000 identifiers per backend call, the batches jointly cover every
marked object in order, and when calls succeed at the call level the sweep
returns success while surfacing all per-object failures of every batch as
warnings rather than aborting. -/
theorem claim_C8_delete_batching
    (bucketKeys : List String) (backupPrefixArg : String)
    (retentionDays : Nat) (nowSec : Int)
    (outFn : List String → DeleteObjectsOutput)
    (backend : List String → Except String DeleteObjectsOutput)
    (hb : ∀ b, backend b = .ok (outFn b)) :
    s3DeleteOldBackups bucketKeys backupPrefixArg retentionDays nowSec backend
      = .ok (s3SweepMarked bucketKeys backupPrefixArg retentionDays nowSec,
             chunkBatches (s3SweepMarked bucketKeys backupPrefixArg retentionDays nowSec),
             (chunkBatches (s3SweepMarked bucketKeys backupPrefixArg retentionDays nowSec)).flatMap
               (fun b => (outFn b).errors)) ∧
    (∀ c ∈ chunkBatches (s3SweepMarked bucketKeys backupPrefixArg retentionDays nowSec),
      c.length ≤ maxBatchSize) ∧
    (chunkBatches (s3SweepMarked bucketKeys backupPrefixArg retentionDays nowSec)).flatten
      = s3SweepMarked bucketKeys backupPrefixArg retentionDays nowSec :=
  ⟨s3DeleteOldBackups_ok bucketKeys backupPrefixArg retentionDays nowSec outFn backend hb,
   chunkBatches_le _, chunkBatches_flatten _⟩

/-- C9: when the prefix root does not exist yet, both DeleteOldBackups
variants succeed as a no-op: the filesystem variant returns nil without
deleting anything when the base directory is missing, and the
object-storage variant, finding no key under the prefix, returns nil
having issued no delete call. -/
theorem claim_C9_missing_root_noop :
    (∀ (entries : Option (List DbDirEntry)) (retentionDays : Nat) (nowSec : Int)
        (removeOk : String → String → Bool),
      localDeleteOldBackups false entries retentionDays nowSec removeOk = .ok []) ∧
    (∀ (bucketKeys : List String) (backupPrefixArg : String)
        (retentionDays : Nat) (nowSec : Int)
        (backend : List String → Except String DeleteObjectsOutput),
      (∀ k ∈ bucketKeys, goHasPrefix k (backupPrefixArg ++ "/") = false) →
      s3DeleteOldBackups bucketKeys backupPrefixArg retentionDays nowSec backend
        = .ok ([], [], [])) := by
  constructor
  · intro entries retentionDays nowSec removeOk
    simp [localDeleteOldBackups]
  · intro bucketKeys backupPrefixArg retentionDays nowSec backend hnone
    have hlist : bucketKeys.filter (fun k => goHasPrefix k (backupPrefixArg ++ "/")) = [] := by
      rw [List.filter_eq_nil_iff]
      intro k hk
      simp [hnone k hk]
    simp only [s3DeleteOldBackups, s3MarkExpired, hlist, List.filter_nil]
    simp

/-- C9 witness: evaluated for a missing local root and a bucket whose only
key lies outside the prefix. -/
theorem claim_C9_missing_root_noop_witness :
    localDeleteOldBackups false (some []) 3 0 (fun _ _ => true) = .ok [] ∧
    s3DeleteOldBackups ["other/db1/2020-01-01/a.sql"] "backups" 3 0
        (fun b => .ok ⟨b, []⟩) = .ok ([], [], []) :=
  ⟨claim_C9_missing_root_noop.1 (some []) 3 0 (fun _ _ => true),
   claim_C9_missing_root_noop.2 ["other/db1/2020-01-01/a.sql"] "backups" 3 0
     (fun b => .ok ⟨b, []⟩) (by decide)⟩

theorem digitChar_ne_slash (n : Nat) : digitChar n ≠ '/' := by
  unfold digitChar
  split <;> decide

theorem pad2_no_slash (n : Nat) : ∀ c ∈ (pad2 n).data, c ≠ '/' := by
  intro c hc
  have hc2 : c ∈ [digitChar (n / 10 % 10), digitChar (n % 10)] := hc
  simp only [List.mem_cons, List.not_mem_nil, or_false] at hc2
  rcases hc2 with rfl | rfl <;> exact digitChar_ne_slash _

theorem pad4_no_slash (n : Nat) : ∀ c ∈ (pad4 n).data, c ≠ '/' := by
  intro c hc
  have hc2 : c ∈ [digitChar (n / 1000 % 10), digitChar (n / 100 % 10),
      digitChar (n / 10 % 10), digitChar (n % 10)] := hc
  simp only [List.mem_cons, List.not_mem_nil, or_false] at hc2
  rcases hc2 with rfl | rfl | rfl | rfl <;> exact digitChar_ne_slash _

theorem goFormatDate_no_slash (t : DateTime) :
    ∀ c ∈ (goFormatDate t).data, c ≠ '/' := by
  intro c hc
  rw [show (goFormatDate t).data = (pad4 t.year).data ++ ("-".data
      ++ ((pad2 t.month).data ++ ("-".data ++ (pad2 t.day).data))) from by
    simp [goFormatDate, String.data_append]] at hc
  simp only [List.mem_append] at hc
  rcases hc with hc | hc | hc | hc | hc
  · exact pad4_no_slash _ _ hc
  · have hc2 : c ∈ ['-'] := hc
    simp only [List.mem_cons, List.not_mem_nil, or_false] at hc2
    subst hc2; decide
  · exact pad2_no_slash _ _ hc
  · have hc2 : c ∈ ['-'] := hc
    simp only [List.mem_cons, List.not_mem_nil, or_false] at hc2
    subst hc2; decide
  · exact pad2_no_slash _ _ hc

theorem goFormatTimestamp_no_slash (t : DateTime) :
    ∀ c ∈ (goFormatTimestamp t).data, c ≠ '/' := by
  intro c hc
  rw [show (goFormatTimestamp t).data = (goFormatDate t).data ++ ("_".data
      ++ ((pad2 t.hour).data ++ ("-".data ++ ((pad2 t.minute).data
      ++ ("-".data ++ (pad2 t.second).data))))) from by
    simp [goFormatTimestamp, String.data_append]] at hc
  simp only [List.mem_append] at hc
  rcases hc with hc | hc | hc | hc | hc | hc | hc
  · exact goFormatDate_no_slash _ _ hc
  · have hc2 : c ∈ ['_'] := hc
    simp only [List.mem_cons, List.not_mem_nil, or_false] at hc2
    subst hc2; decide
  · exact pad2_no_slash _ _ hc
  · have hc2 : c ∈ ['-'] := hc
    simp only [List.mem_cons, List.not_mem_nil, or_false] at hc2
    subst hc2; decide
  · exact pad2_no_slash _ _ hc
  · have hc2 : c ∈ ['-'] := hc
    simp only [List.mem_cons, List.not_mem_nil, or_false] at hc2
    subst hc2; decide
  · exact pad2_no_slash _ _ hc

/-- C10: the orchestrator derives the database-name segment of the storage
destination from the dump filename as the substring before the first
underscore, so a database whose logical name contains an underscore is
stored under a truncated segment that differs from the configured name,
as visible in the artifact-save call of the backup loop. -/
theorem claim_C10_derived_name_truncation (scratchDir databaseName : String)
    (ts : DateTime) (hdb : databaseName ≠ "")
    (hslash : ∀ c ∈ databaseName.data, c ≠ '/')
    (hu : '_' ∈ databaseName.data) :
    deriveDatabaseName (dumpArtifactPath scratchDir databaseName ts)
      = String.mk (databaseName.data.takeWhile (fun c => c ≠ '_')) ∧
    deriveDatabaseName (dumpArtifactPath scratchDir databaseName ts) ≠ databaseName ∧
    BackupEvent.saveArtifact 0
        (String.mk (databaseName.data.takeWhile (fun c => c ≠ '_'))) true
      ∈ (performBackup [⟨some (dumpArtifactPath scratchDir databaseName ts), true, true⟩]
          true).events := by
  have hfname_ne : databaseName ++ "_" ++ goFormatTimestamp ts ++ ".sql" ≠ "" :=
    append_ne_empty _ _ (append_ne_empty _ _ (append_ne_empty _ _ hdb))
  have hfname_chars :
      ∀ c ∈ (databaseName ++ "_" ++ goFormatTimestamp ts ++ ".sql").data, c ≠ '/' := by
    intro c hc
    rw [show (databaseName ++ "_" ++ goFormatTimestamp ts ++ ".sql").data
        = databaseName.data ++ ("_".data ++ ((goFormatTimestamp ts).data ++ ".sql".data)) from by
      simp [String.data_append]] at hc
    simp only [List.mem_append] at hc
    rcases hc with hc | hc | hc | hc
    · exact hslash c hc
    · have hc2 : c ∈ ['_'] := hc
      simp only [List.mem_cons, List.not_mem_nil, or_false] at hc2
      subst hc2; decide
    · exact goFormatTimestamp_no_slash _ _ hc
    · have hc2 : c ∈ ['.', 's', 'q', 'l'] := hc
      simp only [List.mem_cons, List.not_mem_nil, or_false] at hc2
      rcases hc2 with rfl | rfl | rfl | rfl <;> decide
  have hbase : goBase (dumpArtifactPath scratchDir databaseName ts)
      = databaseName ++ "_" ++ goFormatTimestamp ts ++ ".sql" := by
    unfold dumpArtifactPath
    exact goBase_append scratchDir _ hfname_ne hfname_chars
  have htw : (databaseName ++ "_" ++ goFormatTimestamp ts ++ ".sql").data.takeWhile
      (fun c => c ≠ '_') = databaseName.data.takeWhile (fun c => c ≠ '_') := by
    rw [show (databaseName ++ "_" ++ goFormatTimestamp ts ++ ".sql").data
        = databaseName.data ++ ('_' :: ((goFormatTimestamp ts).data ++ ".sql".data)) from by
      simp [String.data_append]]
    exact takeWhile_append_of_not_all _ _ _ (takeWhile_ne_of_mem_underscore hu)
  have hder : deriveDatabaseName (dumpArtifactPath scratchDir databaseName ts)
      = String.mk (databaseName.data.takeWhile (fun c => c ≠ '_')) := by
    unfold deriveDatabaseName
    rw [hbase, goSplit_headD, htw]
  refine ⟨hder, ?_, ?_⟩
  · rw [hder]
    intro heq
    have hdata : databaseName.data.takeWhile (fun c => c ≠ '_') = databaseName.data :=
      congrArg String.data heq
    exact takeWhile_ne_of_mem_underscore hu hdata
  · have hstep : performDbStep 0
        ⟨some (dumpArtifactPath scratchDir databaseName ts), true, true⟩
        = (1, 0, [.createBackup 0 true,
            .saveArtifact 0 (deriveDatabaseName (dumpArtifactPath scratchDir databaseName ts)) true,
            .cleanupArtifact 0]) := by
      simp [performDbStep]
    simp [performBackup, backupLoop, hstep, hder]

/-! ## Witnesses -/

/-- C4 witness: a failing storage pre-flight on a one-database
configuration is fatal and produces no backup-phase event. -/
theorem claim_C4_preflight_gate_witness :
    (runOnce false [] [⟨some "/tmp/db1_x.sql", true, true⟩] true).fatal = true ∧
    RunEvent.backup (.deleteOldBackups true)
      ∉ (runOnce false [] [⟨some "/tmp/db1_x.sql", true, true⟩] true).events :=
  ⟨(claim_C4_preflight_gate false [] [⟨some "/tmp/db1_x.sql", true, true⟩] true
      (Or.inl rfl)).1,
   (claim_C4_preflight_gate false [] [⟨some "/tmp/db1_x.sql", true, true⟩] true
      (Or.inl rfl)).2 (.deleteOldBackups true)⟩

/-- C5 witness: a two-database run with a dump failure at index 0 and a
transfer failure at index 1 still attempts both, keeps the transfer
failure's cleanup inside the step, and counts both failures. -/
theorem claim_C5_failure_isolation_witness :
    BackupEvent.createBackup 0 false
      ∈ (performBackup [⟨none, true, true⟩, ⟨some "/tmp/db_y.sql", false, true⟩] true).events ∧
    BackupEvent.saveArtifact 0 "db" true
      ∉ (performBackup [⟨none, true, true⟩, ⟨some "/tmp/db_y.sql", false, true⟩] true).events ∧
    [BackupEvent.createBackup 1 true,
     BackupEvent.saveArtifact 1 (deriveDatabaseName "/tmp/db_y.sql") false,
     BackupEvent.cleanupArtifact 1]
      <:+: (performBackup [⟨none, true, true⟩, ⟨some "/tmp/db_y.sql", false, true⟩] true).events ∧
    (performBackup [⟨none, true, true⟩, ⟨some "/tmp/db_y.sql", false, true⟩] true).failedBackups
      = 2 :=
  ⟨(claim_C5_failure_isolation [⟨none, true, true⟩, ⟨some "/tmp/db_y.sql", false, true⟩] true).1
      0 (by decide),
   (claim_C5_failure_isolation [⟨none, true, true⟩, ⟨some "/tmp/db_y.sql", false, true⟩] true).2.1
      0 (by decide) rfl "db" true,
   (claim_C5_failure_isolation [⟨none, true, true⟩, ⟨some "/tmp/db_y.sql", false, true⟩] true).2.2.1
      1 (by decide) "/tmp/db_y.sql" rfl rfl,
   ((claim_C5_failure_isolation [⟨none, true, true⟩, ⟨some "/tmp/db_y.sql", false, true⟩] true).2.2.2).trans
      (by decide)⟩

/-- C6 witness: the layouts coincide for a concrete upload at
2026-10-11 01:02:03. -/
theorem claim_C6_storage_layout_witness :
    uploadBackupKey ⟨2026, 10, 11, 1, 2, 3⟩
        ("/tmp" ++ "/" ++ "db1_2026-10-11_01-02-03.sql") "nightly" "db1"
      = specStorageKey "nightly" "db1" ⟨2026, 10, 11, 1, 2, 3⟩
          ("/tmp" ++ "/" ++ "db1_2026-10-11_01-02-03.sql") ∧
    saveBackupPath "/backups" ⟨2026, 10, 11, 1, 2, 3⟩
        ("/tmp" ++ "/" ++ "db1_2026-10-11_01-02-03.sql") "nightly" "db1"
      = "/backups" ++ "/" ++ specStorageKey "nightly" "db1" ⟨2026, 10, 11, 1, 2, 3⟩
          ("/tmp" ++ "/" ++ "db1_2026-10-11_01-02-03.sql") :=
  claim_C6_storage_layout ⟨2026, 10, 11, 1, 2, 3⟩ "/backups" "/tmp"
    "db1_2026-10-11_01-02-03.sql" "nightly" "db1"
    (by decide) (by decide) (by decide) (by decide) (by decide)

/-- C7 witness: over a bucket with one malformed and one expired key, the
sweep marks only the expired key. -/
theorem claim_C7_malformed_tolerance_witness :
    "backups/db1/not-a-date/x.sql"
      ∉ s3SweepMarked ["backups/db1/not-a-date/x.sql", "backups/db1/2020-01-01/y.sql"]
          "backups" 1 (dateSec ⟨2026, 10, 11⟩) ∧
    "backups/db1/2020-01-01/y.sql"
      ∈ s3SweepMarked ["backups/db1/not-a-date/x.sql", "backups/db1/2020-01-01/y.sql"]
          "backups" 1 (dateSec ⟨2026, 10, 11⟩) :=
  ⟨(claim_C7_malformed_tolerance
      ["backups/db1/not-a-date/x.sql", "backups/db1/2020-01-01/y.sql"] "backups" 1
      (dateSec ⟨2026, 10, 11⟩) (fun b => ⟨b, []⟩) (fun b => .ok ⟨b, []⟩) (fun _ => rfl)
      [] (fun _ _ => true) (fun _ _ => rfl)).2.1
      "backups/db1/not-a-date/x.sql" (by decide),
   (claim_C7_malformed_tolerance
      ["backups/db1/not-a-date/x.sql", "backups/db1/2020-01-01/y.sql"] "backups" 1
      (dateSec ⟨2026, 10, 11⟩) (fun b => ⟨b, []⟩) (fun b => .ok ⟨b, []⟩) (fun _ => rfl)
      [] (fun _ _ => true) (fun _ _ => rfl)).2.2.1
      "backups/db1/2020-01-01/y.sql" (by decide) (by decide) (by decide)⟩

/-- C8 witness: a one-key sweep whose single batch reports one per-object
error still returns success with that error surfaced as a warning. -/
theorem claim_C8_delete_batching_witness :
    s3DeleteOldBackups ["backups/db1/2020-01-01/y.sql"] "backups" 1
        (dateSec ⟨2026, 10, 11⟩)
        (fun b => .ok ⟨b, [("backups/db1/2020-01-01/y.sql", "AccessDenied")]⟩)
      = .ok (s3SweepMarked ["backups/db1/2020-01-01/y.sql"] "backups" 1
               (dateSec ⟨2026, 10, 11⟩),
             chunkBatches (s3SweepMarked ["backups/db1/2020-01-01/y.sql"] "backups" 1
               (dateSec ⟨2026, 10, 11⟩)),
             (chunkBatches (s3SweepMarked ["backups/db1/2020-01-01/y.sql"] "backups" 1
               (dateSec ⟨2026, 10, 11⟩))).flatMap
               (fun b => (DeleteObjectsOutput.mk b
                 [("backups/db1/2020-01-01/y.sql", "AccessDenied")]).errors)) :=
  (claim_C8_delete_batching ["backups/db1/2020-01-01/y.sql"] "backups" 1
    (dateSec ⟨2026, 10, 11⟩)
    (fun b => ⟨b, [("backups/db1/2020-01-01/y.sql", "AccessDenied")]⟩)
    (fun b => .ok ⟨b, [("backups/db1/2020-01-01/y.sql", "AccessDenied")]⟩)
    (fun _ => rfl)).1

/-- C10 witness: the configured name my_db is stored under the truncated
segment before its underscore. -/
theorem claim_C10_derived_name_truncation_witness :
    deriveDatabaseName (dumpArtifactPath "/tmp" "my_db" ⟨2026, 1, 2, 3, 4, 5⟩)
      = String.mk ("my_db".data.takeWhile (fun c => c ≠ '_')) ∧
    deriveDatabaseName (dumpArtifactPath "/tmp" "my_db" ⟨2026, 1, 2, 3, 4, 5⟩) ≠ "my_db" ∧
    BackupEvent.saveArtifact 0 (String.mk ("my_db".data.takeWhile (fun c => c ≠ '_'))) true
      ∈ (performBackup [⟨some (dumpArtifactPath "/tmp" "my_db" ⟨2026, 1, 2, 3, 4, 5⟩),
          true, true⟩] true).events :=
  claim_C10_derived_name_truncation "/tmp" "my_db" ⟨2026, 1, 2, 3, 4, 5⟩
    (by decide) (by decide) (by decide)
